import Mathlib

/-!
Verification of the scanning engine of `async-scanner` (src/main.rs):
port-specification parsing, service classification, banner reading,
per-probe outcome classification, the semaphore-bounded dispatch loop,
and summary construction.  Each Rust function is shallowly embedded as a
computable Lean definition; network and scheduler effects are made
explicit as data (connection outcomes, read outcomes, timed events).
-/

/-- The whitespace test of Rust's `char::is_whitespace`, used by the
embeddings of `trim` and `trim_end`: the full Unicode `White_Space` set —
U+0009-U+000D, space, NEL (U+0085), NBSP (U+00A0), U+1680,
U+2000-U+200A, the line and paragraph separators (U+2028, U+2029),
U+202F, U+205F and the ideographic space U+3000. -/
def isWS (c : Char) : Bool :=
  let n := c.toNat
  (9 ≤ n && n ≤ 13) || n = 32 || n = 133 || n = 160 || n = 5760 ||
    (8192 ≤ n && n ≤ 8202) || n = 8232 || n = 8233 || n = 8239 ||
    n = 8287 || n = 12288

/-- Embedding of Rust `str::trim` on a character list: whitespace removed
from both ends. -/
def trimList (l : List Char) : List Char :=
  (((l.dropWhile isWS).reverse).dropWhile isWS).reverse

/-- Embedding of Rust `str::trim_end` on a character list: trailing
whitespace removed. -/
def trimEndList (l : List Char) : List Char :=
  ((l.reverse).dropWhile isWS).reverse

/-- Embedding of Rust `str::split(sep)`: splitting an empty string yields
one empty piece, and separators at the ends yield empty pieces, exactly as
in Rust. -/
def splitOnChar (sep : Char) : List Char → List (List Char)
  | [] => [[]]
  | c :: rest =>
    if c = sep then [] :: splitOnChar sep rest
    else
      match splitOnChar sep rest with
      | [] => [[c]]
      | h :: t => (c :: h) :: t

/-- Embedding of Rust `str::parse::<u16>()`: an optional leading `+`
followed by one or more ASCII digits, value at most 65535; anything else
(empty token, sign alone, non-digit, overflow) fails. -/
def parseU16 (t : List Char) : Option Nat :=
  let ds := match t with
    | '+' :: rest => rest
    | _ => t
  if ds.isEmpty then none
  else if ds.all Char.isDigit then
    let n := ds.foldl (fun a c => a * 10 + (c.toNat - 48)) 0
    if n ≤ 65535 then some n else none
  else none

/-- The inclusive range `a..=b` of Rust, as the list `[a, a+1, ..., b]`
(empty when `b + 1 ≤ a`). -/
def rangeIncl (a b : Nat) : List Nat := (List.range (b + 1 - a)).map (· + a)

/-- Embedding of the token loop of `parse_ports` (src/main.rs lines
330-351): each comma-separated token is trimmed; empty tokens are
skipped; a token containing `-` must split into exactly two `u16` parts
with start ≤ end and expands to the inclusive range; any other token must
parse as a single `u16`.  The first bad token aborts with an error, so no
partial accumulation escapes. -/
def collectPorts : List (List Char) → Except String (List Nat)
  | [] => Except.ok []
  | tok :: rest =>
    let part := trimList tok
    if part.isEmpty then collectPorts rest
    else if part.contains '-' then
      match splitOnChar '-' part with
      | [a, b] =>
        match parseU16 a, parseU16 b with
        | some s, some e =>
          if s > e then Except.error "Start > end"
          else
            match collectPorts rest with
            | Except.ok v => Except.ok (rangeIncl s e ++ v)
            | Except.error m => Except.error m
        | _, _ => Except.error "invalid port number"
      | _ => Except.error "Invalid range format"
    else
      match parseU16 part with
      | some n =>
        match collectPorts rest with
        | Except.ok v => Except.ok (n :: v)
        | Except.error m => Except.error m
      | none => Except.error "invalid port number"

/-- Embedding of Rust `Vec::dedup`: removes consecutive duplicates. -/
def dedupAdj : List Nat → List Nat
  | [] => []
  | [a] => [a]
  | a :: b :: rest =>
    if a = b then dedupAdj (b :: rest) else a :: dedupAdj (b :: rest)

/-- Embedding of `parse_ports` (src/main.rs lines 328-359): expand all
tokens, then `sort`, `dedup`, `retain(p != 0)`, and fail if the result is
empty.  Failure is atomic by the `Except` return type: an error carries no
port list. -/
def parse_ports (s : String) : Except String (List Nat) :=
  match collectPorts (splitOnChar ',' s.toList) with
  | Except.error m => Except.error m
  | Except.ok v =>
    let w := (dedupAdj (List.insertionSort (· ≤ ·) v)).filter (fun p => p != 0)
    if w.isEmpty then Except.error "No valid ports" else Except.ok w

example : parse_ports "22,22,80-82,0" = Except.ok [22, 80, 81, 82] := rfl
example : (parse_ports "100-50").isOk = false := by decide
example : (parse_ports "abc").isOk = false := by decide
example : (parse_ports "").isOk = false := by decide
example : parse_ports " 7 , 9-11 " = Except.ok [7, 9, 10, 11] := rfl
example : (parse_ports "1-2-3").isOk = false := by decide
example : (parse_ports "70000").isOk = false := by decide
example : parse_ports "+80" = Except.ok [80] := rfl

/-- Substring search on character lists, the embedding of Rust
`str::contains(pat)`. -/
def containsSeq (pat : List Char) : List Char → Bool
  | [] => pat.isEmpty
  | c :: rest => pat.isPrefixOf (c :: rest) || containsSeq pat rest

/-- Embedding of Rust `str::contains` for string patterns. -/
def strContains (s pat : String) : Bool := containsSeq pat.toList s.toList

/-- Embedding of Rust `str::starts_with`. -/
def strStarts (s pat : String) : Bool := pat.toList.isPrefixOf s.toList

/-- The fixed well-known-ports table of `detect_service` (src/main.rs
lines 277-286), built there as a `HashMap` keyed by port. -/
def service_table (port : Nat) : Option String :=
  if port = 22 then some "SSH"
  else if port = 80 then some "HTTP"
  else if port = 443 then some "HTTPS"
  else if port = 21 then some "FTP"
  else if port = 25 then some "SMTP"
  else if port = 3306 then some "MySQL"
  else if port = 5432 then some "PostgreSQL"
  else if port = 3389 then some "RDP"
  else if port = 5900 then some "VNC"
  else none

/-- Embedding of `detect_service` (src/main.rs lines 276-301): banner
signals first, in source order (`SSH-` substring, then `HTTP/` or
`Server:` substring, then a `220 ` prefix), else the well-known-ports
table.  A pure function of its two arguments. -/
def detect_service (port : Nat) (banner : Option String) : Option String :=
  match banner with
  | some b =>
    if strContains b "SSH-" then some "SSH"
    else if strContains b "HTTP/" || strContains b "Server:" then some "HTTP"
    else if strStarts b "220 " then some "SMTP/FTP"
    else service_table port
  | none => service_table port

example : detect_service 22 none = some "SSH" := by decide
example : detect_service 9999 (some "SSH-2.0-OpenSSH") = some "SSH" := by decide
example : detect_service 80 (some "HTTP/1.1 200 OK") = some "HTTP" := by decide
example : detect_service 9999 none = none := by decide
example : detect_service 443 (some "220 hello") = some "SMTP/FTP" := by decide
example : detect_service 21 (some "plain text") = some "FTP" := by decide

/-- Continuation byte test for UTF-8 decoding (0x80-0xBF). -/
def contByte (b : Nat) : Bool := 128 ≤ b && b ≤ 191

/-- Allowed second byte after a three-byte lead (excludes overlong forms
after 0xE0 and surrogates after 0xED). -/
def cont3ok (b1 b2 : Nat) : Bool :=
  if b1 = 224 then 160 ≤ b2 && b2 ≤ 191
  else if b1 = 237 then 128 ≤ b2 && b2 ≤ 159
  else contByte b2

/-- Allowed second byte after a four-byte lead (excludes overlong forms
after 0xF0 and values above U+10FFFF after 0xF4). -/
def cont4ok (b1 b2 : Nat) : Bool :=
  if b1 = 240 then 144 ≤ b2 && b2 ≤ 191
  else if b1 = 244 then 128 ≤ b2 && b2 ≤ 143
  else contByte b2

/-- Worker for `utf8Lossy`, structurally recursive on a fuel argument
that never runs out when it starts at the list's length: every step
consumes at least one byte and one unit of fuel. -/
def utf8LossyAux : Nat → List Nat → List Char
  | 0, _ => []
  | _ + 1, [] => []
  | fuel + 1, b1 :: rest =>
    if b1 < 128 then Char.ofNat b1 :: utf8LossyAux fuel rest
    else if 194 ≤ b1 && b1 ≤ 223 then
      match rest with
      | b2 :: rest2 =>
        if contByte b2 then
          Char.ofNat ((b1 - 192) * 64 + (b2 - 128)) :: utf8LossyAux fuel rest2
        else Char.ofNat 65533 :: utf8LossyAux fuel rest
      | [] => [Char.ofNat 65533]
    else if 224 ≤ b1 && b1 ≤ 239 then
      match rest with
      | b2 :: rest2 =>
        if cont3ok b1 b2 then
          match rest2 with
          | b3 :: rest3 =>
            if contByte b3 then
              Char.ofNat ((b1 - 224) * 4096 + (b2 - 128) * 64 + (b3 - 128)) ::
                utf8LossyAux fuel rest3
            else Char.ofNat 65533 :: utf8LossyAux fuel rest2
          | [] => [Char.ofNat 65533]
        else Char.ofNat 65533 :: utf8LossyAux fuel rest
      | [] => [Char.ofNat 65533]
    else if 240 ≤ b1 && b1 ≤ 244 then
      match rest with
      | b2 :: rest2 =>
        if cont4ok b1 b2 then
          match rest2 with
          | b3 :: rest3 =>
            if contByte b3 then
              match rest3 with
              | b4 :: rest4 =>
                if contByte b4 then
                  Char.ofNat
                      ((b1 - 240) * 262144 + (b2 - 128) * 4096 +
                        (b3 - 128) * 64 + (b4 - 128)) ::
                    utf8LossyAux fuel rest4
                else Char.ofNat 65533 :: utf8LossyAux fuel rest3
              | [] => [Char.ofNat 65533]
            else Char.ofNat 65533 :: utf8LossyAux fuel rest2
          | [] => [Char.ofNat 65533]
        else Char.ofNat 65533 :: utf8LossyAux fuel rest
      | [] => [Char.ofNat 65533]
    else Char.ofNat 65533 :: utf8LossyAux fuel rest

/-- Total embedding of Rust `String::from_utf8_lossy`: well-formed UTF-8
sequences decode to their scalar values and each maximal invalid subpart
becomes one replacement character U+FFFD.  Being a total function, it
never fails on malformed input. -/
def utf8Lossy (bytes : List Nat) : List Char := utf8LossyAux bytes.length bytes

example : utf8Lossy [72, 105] = ['H', 'i'] := by decide
example : utf8Lossy [206, 187] = ['λ'] := by decide
example : utf8Lossy [206] = [Char.ofNat 65533] := by decide

/-- What the timed banner read of `grab_banner` observes: the bytes that
arrived before the 1.2 s secondary deadline, or an I/O error from
`readable`/`read`, or expiry of the secondary deadline itself. -/
inductive ReadOutcome where
  | data (bytes : List Nat)
  | ioErr
  | timeoutExpired
deriving DecidableEq

/-- A string from a character list. -/
def chString (l : List Char) : String := String.mk l

/-- Embedding of `grab_banner` (src/main.rs lines 258-274): the 4096-byte
buffer caps the read, a read of `n > 0` bytes yields the lossily decoded,
end-trimmed text, and a zero-byte read, an I/O error, or expiry of the
secondary deadline yields the error (`ScanError::Io` in the source, here
collapsed to `Unit` since only success carries data). -/
def grab_banner (r : ReadOutcome) : Except Unit String :=
  match r with
  | ReadOutcome.data bytes =>
    let received := bytes.take 4096
    if received.length > 0 then
      Except.ok (chString (trimEndList (utf8Lossy received)))
    else Except.error ()
  | ReadOutcome.ioErr => Except.error ()
  | ReadOutcome.timeoutExpired => Except.error ()

example : grab_banner (ReadOutcome.data [83, 83, 72, 45, 10]) = Except.ok "SSH-" := rfl
example : grab_banner (ReadOutcome.data [32, 13, 10]) = Except.ok "" := rfl
example : grab_banner (ReadOutcome.data [11, 12]) = Except.ok "" := rfl
example : grab_banner (ReadOutcome.data [226, 128, 168]) = Except.ok "" := rfl
example : grab_banner (ReadOutcome.data [50, 50, 48, 32, 12]) = Except.ok "220" := rfl
example : (grab_banner (ReadOutcome.data [])).isOk = false := by decide
example : (grab_banner ReadOutcome.ioErr).isOk = false := by decide

/-- The three port statuses of the scanner (src/main.rs lines 77-82). -/
inductive PortStatus where
  | Open
  | Closed
  | Filtered
deriving DecidableEq

/-- Error kinds a failed `TcpStream::connect` can report before the
deadline; the probe task only distinguishes `ConnectionRefused` from the
rest. -/
inductive ErrKind where
  | connectionRefused
  | hostUnreachable
  | networkUnreachable
  | otherErr
deriving DecidableEq

/-- Outcome of `timeout(conn_timeout, TcpStream::connect(addr))`:
`connected r` is `Ok(Ok(stream))` (with `r` what the subsequent banner
read on that stream observes), `connErr k` is `Ok(Err(e))` with
`e.kind() = k`, and `deadlineExceeded` is the timeout wrapper's `Err`. -/
inductive ConnectOutcome where
  | connected (r : ReadOutcome)
  | connErr (k : ErrKind)
  | deadlineExceeded
deriving DecidableEq

/-- One record per scanned port (src/main.rs lines 68-75). -/
structure PortResult where
  port : Nat
  status : PortStatus
  banner : Option String
  service : Option String
  duration_ms : Nat
deriving DecidableEq

/-- The instants relevant to one probe task, all measured on one clock:
the scan's `start_time`, the dispatch of the task, the resolution of the
connect attempt (when `Instant::now() - start_time` is taken, src/main.rs
line 151), and the completion of the whole task (after any banner read). -/
structure ProbeTimes where
  scanStart : Nat
  dispatched : Nat
  connectResolved : Nat
  completed : Nat
  dispatch_after_start : scanStart ≤ dispatched
  resolve_after_dispatch : dispatched ≤ connectResolved
  complete_after_resolve : connectResolved ≤ completed

/-- Embedding of the probe task body (src/main.rs lines 145-180): the
connect outcome is classified into `Open` (with banner and service),
`Closed` (explicit refusal only), or `Filtered` (deadline exceeded or any
other error), and `duration_ms` is the clock reading taken right after
the connect attempt resolves, minus the scan's start. -/
def run_probe (t : ProbeTimes) (port : Nat) (co : ConnectOutcome) : PortResult :=
  let duration := t.connectResolved - t.scanStart
  match co with
  | ConnectOutcome.connected r =>
    let banner := (grab_banner r).toOption
    let service := detect_service port banner
    { port := port, status := PortStatus.Open, banner := banner,
      service := service, duration_ms := duration }
  | ConnectOutcome.connErr k =>
    if k = ErrKind.connectionRefused then
      { port := port, status := PortStatus.Closed, banner := none,
        service := none, duration_ms := duration }
    else
      { port := port, status := PortStatus.Filtered, banner := none,
        service := none, duration_ms := duration }
  | ConnectOutcome.deadlineExceeded =>
    { port := port, status := PortStatus.Filtered, banner := none,
      service := none, duration_ms := duration }

/-- What the collection loop (src/main.rs lines 188-201) receives for one
spawned task: the task's `PortResult`, or a `JoinError` (task-dispatch
failure), which is logged and dropped. -/
inductive TaskOutcome where
  | ok (r : PortResult)
  | dispatchFailed

/-- The collection loop: completed results are pushed in arrival order,
failed joins are logged and contribute nothing. -/
def collectResults : List TaskOutcome → List PortResult
  | [] => []
  | TaskOutcome.ok r :: rest => r :: collectResults rest
  | TaskOutcome.dispatchFailed :: rest => collectResults rest

/-- Count of results with a given status, the embedding of
`results.iter().filter(|r| r.status == st).count()` (src/main.rs lines
208-210). -/
def countStatus (st : PortStatus) (rs : List PortResult) : Nat :=
  (rs.filter (fun r => r.status = st)).length

/-- The scan's aggregate output (src/main.rs lines 94-103). -/
structure ScanSummary where
  target : String
  scanned_ports : Nat
  open_ports : Nat
  closed_ports : Nat
  filtered_ports : Nat
  total_time_ms : Nat
  results : List PortResult
deriving DecidableEq

/-- Embedding of the summary construction (src/main.rs lines 184-220):
collect the joined results, then count each status over the collected
list; `scanned_ports` is `results.len()`. -/
def mkSummary (target : String) (totalTime : Nat) (outs : List TaskOutcome) :
    ScanSummary :=
  let results := collectResults outs
  { target := target,
    scanned_ports := results.length,
    open_ports := countStatus PortStatus.Open results,
    closed_ports := countStatus PortStatus.Closed results,
    filtered_ports := countStatus PortStatus.Filtered results,
    total_time_ms := totalTime,
    results := results }

/-- State of the dispatch loop and its probes: ports not yet dispatched,
free semaphore permits, probe tasks holding a permit (in flight), and
finished probes. -/
structure ScanState where
  pending : Nat
  permits : Nat
  inFlight : Nat
  done : Nat
deriving DecidableEq

/-- Atomic transitions of the orchestrator, following src/main.rs lines
140-146 and 180: `acquire` models `semaphore.acquire_owned().await`
succeeding for the next port (a free permit is consumed and the probe
enters flight before its connect begins), `release` models a probe task
finishing and dropping `_permit` (success or failure alike). -/
inductive ScanStep : ScanState → ScanState → Prop
  | acquire (s : ScanState) (hp : 0 < s.pending) (hm : 0 < s.permits) :
      ScanStep s ⟨s.pending - 1, s.permits - 1, s.inFlight + 1, s.done⟩
  | release (s : ScanState) (hf : 0 < s.inFlight) :
      ScanStep s ⟨s.pending, s.permits + 1, s.inFlight - 1, s.done + 1⟩

/-- States reachable from the start of a scan of `k` ports with
`Semaphore::new(n)` (src/main.rs line 126): initially all `k` ports are
pending, all `n` permits are free, and nothing is in flight. -/
inductive ScanReach (n k : Nat) : ScanState → Prop
  | init : ScanReach n k ⟨k, n, 0, 0⟩
  | step {s t : ScanState} : ScanReach n k s → ScanStep s t → ScanReach n k t

/-!  Theorems.  Each claim C1-C10 has exactly one theorem below.  -/

theorem dedupAdj_chain :
    ∀ l : List Nat, l.Chain' (· ≤ ·) →
      (dedupAdj l).Chain' (· < ·) ∧ (dedupAdj l).head? = l.head?
  | [], _ => by simp [dedupAdj]
  | [a], _ => by simp [dedupAdj]
  | a :: b :: rest, h => by
    rw [List.chain'_cons] at h
    obtain ⟨hab, hrest⟩ := h
    obtain ⟨hc, hh⟩ := dedupAdj_chain (b :: rest) hrest
    by_cases hab2 : a = b
    · subst hab2
      constructor
      · simpa [dedupAdj] using hc
      · simpa [dedupAdj] using hh
    · have hlt : a < b := lt_of_le_of_ne hab hab2
      constructor
      · simp only [dedupAdj, if_neg hab2]
        rw [List.chain'_cons']
        refine ⟨?_, hc⟩
        intro y hy
        rw [hh] at hy
        simp only [List.head?_cons, Option.mem_def, Option.some.injEq] at hy
        omega
      · simp [dedupAdj, hab2]

theorem parse_ports_ok_shape {s : String} {l : List Nat}
    (h : parse_ports s = Except.ok l) :
    ∃ v, l = (dedupAdj (List.insertionSort (· ≤ ·) v)).filter (fun p => p != 0) ∧
      l ≠ [] := by
  unfold parse_ports at h
  cases hc : collectPorts (splitOnChar ',' s.toList) with
  | error m => rw [hc] at h; exact absurd h (by simp)
  | ok v =>
    rw [hc] at h
    dsimp only at h
    split at h
    · exact absurd h (by simp)
    · rename_i hne
      refine ⟨v, ?_, ?_⟩
      · exact (Except.ok.inj h).symm
      · rw [← Except.ok.inj h]
        intro hnil
        rw [hnil] at hne
        exact hne rfl

/-- C3: every successful `parse_ports` run yields a strictly ascending,
duplicate-free list with no zero entry, and `"22,22,80-82,0"` parses to
`[22, 80, 81, 82]` (the inclusive range `80-82` fully expanded). -/
theorem C3_parse_ascending :
    (∀ (s : String) (l : List Nat), parse_ports s = Except.ok l →
        l.Chain' (· < ·) ∧ l.Nodup ∧ 0 ∉ l) ∧
      parse_ports "22,22,80-82,0" = Except.ok [22, 80, 81, 82] := by
  constructor
  · intro s l h
    obtain ⟨v, hv, _⟩ := parse_ports_ok_shape h
    have hsorted : List.Sorted (· ≤ ·) (List.insertionSort (· ≤ ·) v) :=
      List.sorted_insertionSort _ v
    have hch : (List.insertionSort (· ≤ ·) v).Chain' (· ≤ ·) :=
      List.chain'_iff_pairwise.mpr hsorted
    have hd := (dedupAdj_chain _ hch).1
    have hfil : l.Chain' (· < ·) := by
      rw [hv]
      exact hd.sublist (List.filter_sublist _)
    refine ⟨hfil, (List.chain'_iff_pairwise.mp hfil).nodup, ?_⟩
    intro h0
    rw [hv] at h0
    have := (List.mem_filter.mp h0).2
    simp at this
  · rfl

/-- A comma-separated token that makes the loop of `parse_ports` abort:
after trimming it is non-empty and either is a range that does not split
on `-` into exactly two `u16` values with start ≤ end, or is a single
token that does not parse as a `u16`. -/
def tokenBad (tok : List Char) : Bool :=
  let part := trimList tok
  if part.isEmpty then false
  else if part.contains '-' then
    match splitOnChar '-' part with
    | [a, b] =>
      match parseU16 a, parseU16 b with
      | some s, some e => decide (s > e)
      | _, _ => true
    | _ => true
  else (parseU16 part).isNone

theorem collectPorts_cons_isOk (tok : List Char) (rest : List (List Char)) :
    (collectPorts (tok :: rest)).isOk =
      (!(tokenBad tok) && (collectPorts rest).isOk) := by
  simp only [collectPorts, tokenBad]
  cases hemp : (trimList tok).isEmpty with
  | true => simp [hemp]
  | false =>
    simp only [hemp, Bool.false_eq_true, if_false]
    cases hdash : (trimList tok).contains '-' with
    | true =>
      simp only [hdash, if_true]
      rcases hsp : splitOnChar '-' (trimList tok) with _ | ⟨a, _ | ⟨b, _ | ⟨c, l3⟩⟩⟩ <;>
        simp only [hsp] <;>
        try simp [Except.isOk, Except.toBool]
      rcases hpa : parseU16 a with _ | s <;>
        rcases hpb : parseU16 b with _ | e <;>
        simp only [hpa, hpb] <;>
        try simp [Except.isOk, Except.toBool]
      by_cases hse : s > e
      · simp [hse, Except.isOk, Except.toBool]
      · simp only [hse, if_false, decide_eq_true_eq]
        cases hr : collectPorts rest <;>
          simp [hse, Except.isOk, Except.toBool]
    | false =>
      simp only [hdash, Bool.false_eq_true, if_false]
      rcases hpp : parseU16 (trimList tok) with _ | n <;>
        simp only [hpp] <;>
        try simp [Except.isOk, Except.toBool]
      cases hr : collectPorts rest <;>
        simp [Except.isOk, Except.toBool]

theorem collectPorts_bad {parts : List (List Char)} {t : List Char}
    (ht : t ∈ parts) (hbad : tokenBad t = true) :
    (collectPorts parts).isOk = false := by
  induction parts with
  | nil => cases ht
  | cons tok rest ih =>
    rw [collectPorts_cons_isOk]
    rcases List.mem_cons.mp ht with h | h
    · rw [← h, hbad]
      rfl
    · rw [ih h]
      simp

theorem parse_ports_err_of_collect {s : String}
    (h : (collectPorts (splitOnChar ',' s.toList)).isOk = false) :
    (parse_ports s).isOk = false := by
  unfold parse_ports
  cases hc : collectPorts (splitOnChar ',' s.toList) with
  | error m => rfl
  | ok v =>
    rw [hc] at h
    simp [Except.isOk, Except.toBool] at h

/-- C4: `parse_ports` fails (returning an error and no list at all, by
its `Except` type) whenever some token is malformed — a range that does
not split on `-` into exactly two `u16` parts, an inverted range, or a
single token that is not a `u16`; a successful parse never returns an
empty list (the empty-after-filtering case is an error); and the three
concrete specifications `"100-50"`, `"abc"` and `""` all fail. -/
theorem C4_parse_failures :
    (∀ (s : String) (t : List Char), t ∈ splitOnChar ',' s.toList →
        tokenBad t = true → (parse_ports s).isOk = false) ∧
      (∀ (s : String) (l : List Nat), parse_ports s = Except.ok l → l ≠ []) ∧
      (parse_ports "100-50").isOk = false ∧
      (parse_ports "abc").isOk = false ∧
      (parse_ports "").isOk = false := by
  refine ⟨?_, ?_, by decide, by decide, by decide⟩
  · intro s t ht hbad
    exact parse_ports_err_of_collect (collectPorts_bad ht hbad)
  · intro s l h
    obtain ⟨v, _, hne⟩ := parse_ports_ok_shape h
    exact hne

/-- C5: `detect_service` is a pure function (by construction) with
first-match-wins precedence: an `SSH-` substring wins, then `HTTP/` or
`Server:`, then a `220 ` prefix, then the fixed well-known-ports table
(22, 80, 443, 21, 25, 3306, 5432, 3389, 5900), else no service; and the
four concrete examples of the specification hold. -/
theorem C5_detect_service :
    (∀ (port : Nat) (b : String), strContains b "SSH-" = true →
        detect_service port (some b) = some "SSH") ∧
      (∀ (port : Nat) (b : String), strContains b "SSH-" = false →
        (strContains b "HTTP/" || strContains b "Server:") = true →
        detect_service port (some b) = some "HTTP") ∧
      (∀ (port : Nat) (b : String), strContains b "SSH-" = false →
        strContains b "HTTP/" = false → strContains b "Server:" = false →
        strStarts b "220 " = true →
        detect_service port (some b) = some "SMTP/FTP") ∧
      (∀ (port : Nat) (b : String), strContains b "SSH-" = false →
        strContains b "HTTP/" = false → strContains b "Server:" = false →
        strStarts b "220 " = false →
        detect_service port (some b) = service_table port) ∧
      (∀ port : Nat, detect_service port none = service_table port) ∧
      service_table 22 = some "SSH" ∧ service_table 80 = some "HTTP" ∧
      service_table 443 = some "HTTPS" ∧ service_table 21 = some "FTP" ∧
      service_table 25 = some "SMTP" ∧ service_table 3306 = some "MySQL" ∧
      service_table 5432 = some "PostgreSQL" ∧ service_table 3389 = some "RDP" ∧
      service_table 5900 = some "VNC" ∧
      (∀ port : Nat,
        port ∉ ([22, 80, 443, 21, 25, 3306, 5432, 3389, 5900] : List Nat) →
        service_table port = none) ∧
      detect_service 22 none = some "SSH" ∧
      detect_service 9999 (some "SSH-2.0-OpenSSH") = some "SSH" ∧
      detect_service 80 (some "HTTP/1.1 200 OK") = some "HTTP" ∧
      detect_service 9999 none = none := by
  refine ⟨?_, ?_, ?_, ?_, ?_, by decide, by decide, by decide, by decide,
    by decide, by decide, by decide, by decide, by decide, ?_,
    by decide, by decide, by decide, by decide⟩
  · intro port b h
    simp [detect_service, h]
  · intro port b h1 h2
    simp [detect_service, h1, h2]
  · intro port b h1 h2 h3 h4
    simp [detect_service, h1, h2, h3, h4]
  · intro port b h1 h2 h3 h4
    simp [detect_service, h1, h2, h3, h4]
  · intro port
    rfl
  · intro port hp
    simp only [List.mem_cons, List.not_mem_nil, or_false] at hp
    push_neg at hp
    obtain ⟨h1, h2, h3, h4, h5, h6, h7, h8, h9⟩ := hp
    simp [service_table, h1, h2, h3, h4, h5, h6, h7, h8, h9]

theorem grab_banner_data_ok {bytes : List Nat} (h : bytes ≠ []) :
    grab_banner (ReadOutcome.data bytes) =
      Except.ok (chString (trimEndList (utf8Lossy (bytes.take 4096)))) := by
  have hlen : (bytes.take 4096).length > 0 := by
    rw [List.length_take]
    have : 0 < bytes.length := List.length_pos.mpr h
    omega
  simp [grab_banner, hlen, h]

theorem dropWhile_idem (p : Char → Bool) :
    ∀ l : List Char, (l.dropWhile p).dropWhile p = l.dropWhile p := by
  intro l
  induction l with
  | nil => rfl
  | cons c rest ih =>
    by_cases hc : p c
    · simp [List.dropWhile_cons, hc, ih]
    · simp [List.dropWhile_cons, hc]

theorem trimEndList_idem (l : List Char) :
    trimEndList (trimEndList l) = trimEndList l := by
  unfold trimEndList
  rw [List.reverse_reverse, dropWhile_idem]

theorem trimEndList_all_ws {cl : List Char} (h : ∀ c ∈ cl, isWS c = true) :
    trimEndList cl = [] := by
  unfold trimEndList
  have hnil : cl.reverse.dropWhile isWS = [] := by
    rw [List.dropWhile_eq_nil_iff]
    intro x hx
    exact h x (List.mem_reverse.mp hx)
  rw [hnil]
  rfl

theorem utf8LossyAux_ascii :
    ∀ (fuel : Nat) (l : List Nat), l.length ≤ fuel → (∀ b ∈ l, b < 128) →
      utf8LossyAux fuel l = l.map Char.ofNat := by
  intro fuel
  induction fuel with
  | zero =>
    intro l hl _
    cases l with
    | nil => rfl
    | cons b rest => simp at hl
  | succ n ih =>
    intro l hl hb
    cases l with
    | nil => rfl
    | cons b rest =>
      have hb1 : b < 128 := hb b (List.mem_cons_self _ _)
      have hr : rest.length ≤ n := by simp at hl; omega
      simp only [utf8LossyAux, List.map_cons]
      rw [if_pos hb1, ih rest hr (fun x hx => hb x (List.mem_cons_of_mem _ hx))]

theorem utf8Lossy_ascii {l : List Nat} (h : ∀ b ∈ l, b < 128) :
    utf8Lossy l = l.map Char.ofNat :=
  utf8LossyAux_ascii l.length l (le_refl _) h

/-- C6: for a live connection the banner read is insensitive to anything
past the first 4096 bytes, succeeds on every non-empty byte burst no
matter how malformed its encoding (returning the lossily decoded,
end-trimmed text, so the returned string never has trailing whitespace),
fails exactly on a zero-byte read, an I/O error or expiry of the
secondary deadline, and a failed banner read never changes the
already-decided `Open` status of the probe. -/
theorem C6_banner_reader :
    (∀ bytes : List Nat, bytes ≠ [] →
        grab_banner (ReadOutcome.data bytes) =
          Except.ok (chString (trimEndList (utf8Lossy (bytes.take 4096))))) ∧
      (∀ bytes extra : List Nat, bytes.length = 4096 →
        grab_banner (ReadOutcome.data (bytes ++ extra)) =
          grab_banner (ReadOutcome.data bytes)) ∧
      (∀ bytes : List Nat, bytes ≠ [] →
        (grab_banner (ReadOutcome.data bytes)).isOk = true) ∧
      (∀ (bytes : List Nat) (b : String),
        grab_banner (ReadOutcome.data bytes) = Except.ok b →
        trimEndList b.data = b.data) ∧
      (grab_banner (ReadOutcome.data [])).isOk = false ∧
      (grab_banner ReadOutcome.ioErr).isOk = false ∧
      (grab_banner ReadOutcome.timeoutExpired).isOk = false ∧
      (∀ (t : ProbeTimes) (port : Nat) (r : ReadOutcome),
        (run_probe t port (ConnectOutcome.connected r)).status = PortStatus.Open) := by
  refine ⟨fun bytes h => grab_banner_data_ok h, ?_, ?_, ?_,
    by decide, by decide, by decide, fun t port r => rfl⟩
  · intro bytes extra hlen
    have h1 : bytes ≠ [] := by
      intro he
      rw [he] at hlen
      simp at hlen
    have h2 : bytes ++ extra ≠ [] := by simp [h1]
    rw [grab_banner_data_ok h1, grab_banner_data_ok h2,
      List.take_append_of_le_length (by omega)]
  · intro bytes h
    rw [grab_banner_data_ok h]
    rfl
  · intro bytes b h
    rcases Decidable.em (bytes = []) with he | he
    · rw [he] at h
      simp [grab_banner] at h
    · rw [grab_banner_data_ok he] at h
      have hb := Except.ok.inj h
      rw [← hb]
      exact trimEndList_idem _

/-- C9: a non-empty burst consisting entirely of whitespace bytes — any
of the ASCII whitespace values tab, LF, VT (11), FF (12), CR and space —
yields a present-but-empty banner `Some("")`, never an absent one;
absence arises exactly from a zero-byte read, an I/O error, or deadline
expiry; and on such a burst (here with VT and FF included) an open probe
carries `banner = Some("")` while staying `Open`. -/
theorem C9_whitespace_banner :
    (∀ bytes : List Nat, bytes ≠ [] →
        (∀ b ∈ bytes, b = 9 ∨ b = 10 ∨ b = 11 ∨ b = 12 ∨ b = 13 ∨ b = 32) →
        grab_banner (ReadOutcome.data bytes) = Except.ok "") ∧
      (∀ r : ReadOutcome, (grab_banner r).isOk = false ↔
        (r = ReadOutcome.ioErr ∨ r = ReadOutcome.timeoutExpired ∨
          r = ReadOutcome.data [])) ∧
      (∀ t : ProbeTimes,
        (run_probe t 80
            (ConnectOutcome.connected
              (ReadOutcome.data [32, 11, 12, 13, 10]))).banner =
          some "") ∧
      (∀ t : ProbeTimes,
        (run_probe t 80
            (ConnectOutcome.connected
              (ReadOutcome.data [32, 11, 12, 13, 10]))).status =
          PortStatus.Open) := by
  refine ⟨?_, ?_, fun t => rfl, fun t => rfl⟩
  · intro bytes hne hws
    rw [grab_banner_data_ok hne]
    have hascii : ∀ b ∈ bytes.take 4096, b < 128 := by
      intro b hb
      rcases hws b (List.mem_of_mem_take hb) with
        rfl | rfl | rfl | rfl | rfl | rfl <;> omega
    rw [utf8Lossy_ascii hascii]
    have htrim : trimEndList ((bytes.take 4096).map Char.ofNat) = [] := by
      apply trimEndList_all_ws
      intro c hc
      obtain ⟨b, hbmem, rfl⟩ := List.mem_map.mp hc
      rcases hws b (List.mem_of_mem_take hbmem) with
        rfl | rfl | rfl | rfl | rfl | rfl <;> decide
    rw [htrim]
    rfl
  · intro r
    cases r with
    | data bytes =>
      cases bytes with
      | nil => simp [grab_banner, Except.isOk, Except.toBool]
      | cons b rest =>
        constructor
        · intro hf
          rw [grab_banner_data_ok (by simp)] at hf
          simp [Except.isOk, Except.toBool] at hf
        · intro hr
          simp at hr
    | ioErr => simp [grab_banner, Except.isOk, Except.toBool]
    | timeoutExpired => simp [grab_banner, Except.isOk, Except.toBool]

/-- C1: the probe's three-way classification.  A connection that
completes before the primary deadline is `Open`; a completed attempt
whose error is an explicit refusal is `Closed` with no banner and no
service; every other outcome — deadline exceeded or any non-refusal
error — is `Filtered` with no banner and no service; and `Closed` arises
only from explicit refusal, never from an ambiguous failure. -/
theorem C1_probe_classification :
    ∀ (t : ProbeTimes) (port : Nat) (co : ConnectOutcome),
      (∀ r : ReadOutcome, co = ConnectOutcome.connected r →
          (run_probe t port co).status = PortStatus.Open) ∧
      (co = ConnectOutcome.connErr ErrKind.connectionRefused →
          run_probe t port co =
            { port := port, status := PortStatus.Closed, banner := none,
              service := none, duration_ms := t.connectResolved - t.scanStart }) ∧
      ((co = ConnectOutcome.deadlineExceeded ∨
          ∃ k, co = ConnectOutcome.connErr k ∧ k ≠ ErrKind.connectionRefused) →
          run_probe t port co =
            { port := port, status := PortStatus.Filtered, banner := none,
              service := none, duration_ms := t.connectResolved - t.scanStart }) ∧
      ((run_probe t port co).status = PortStatus.Closed →
          co = ConnectOutcome.connErr ErrKind.connectionRefused) := by
  intro t port co
  refine ⟨?_, ?_, ?_, ?_⟩
  · rintro r rfl
    rfl
  · rintro rfl
    rfl
  · rintro (rfl | ⟨k, rfl, hk⟩)
    · rfl
    · simp [run_probe, hk]
  · intro h
    cases co with
    | connected r => simp [run_probe] at h
    | connErr k =>
      by_cases hk : k = ErrKind.connectionRefused
      · rw [hk]
      · simp [run_probe, hk] at h
    | deadlineExceeded => simp [run_probe] at h

/-- A concrete probe timing in which the task completes five time units
after its connect attempt resolved (a banner read was in progress). -/
def timesEx : ProbeTimes :=
  { scanStart := 0, dispatched := 1, connectResolved := 5, completed := 10,
    dispatch_after_start := by omega, resolve_after_dispatch := by omega,
    complete_after_resolve := by omega }

/-- C7 counterexample: for an open port whose banner read takes time, the
recorded `duration_ms` (taken when the connect attempt resolves) differs
from the elapsed time at the probe's completion, so the claim as stated
is false. -/
theorem C7_duration_counterexample :
    (run_probe timesEx 22
        (ConnectOutcome.connected (ReadOutcome.data [72, 105]))).duration_ms ≠
      timesEx.completed - timesEx.scanStart := by decide

/-- C7 amended: `duration_ms` is the elapsed time from the start of the
overall scan to the resolution of this probe's connection attempt
(recorded before any banner acquisition, src/main.rs line 151) — not from
the probe's own dispatch — so probes whose connects resolve later in the
scan show larger values. -/
theorem C7_duration_from_scan_start :
    ∀ (t : ProbeTimes) (port : Nat) (co : ConnectOutcome),
      (run_probe t port co).duration_ms = t.connectResolved - t.scanStart ∧
      (∀ t2 : ProbeTimes, t2.scanStart = t.scanStart →
          t.connectResolved ≤ t2.connectResolved →
          (run_probe t port co).duration_ms ≤ (run_probe t2 port co).duration_ms) := by
  intro t port co
  have hdur : ∀ t3 : ProbeTimes,
      (run_probe t3 port co).duration_ms = t3.connectResolved - t3.scanStart := by
    intro t3
    cases co with
    | connected r => rfl
    | connErr k =>
      simp only [run_probe]
      split <;> rfl
    | deadlineExceeded => rfl
  refine ⟨hdur t, ?_⟩
  intro t2 hs hc
  rw [hdur t, hdur t2, hs]
  exact Nat.sub_le_sub_right hc _

theorem scanReach_invariant {n k : Nat} {s : ScanState}
    (h : ScanReach n k s) : s.permits + s.inFlight = n := by
  induction h with
  | init => simp
  | step hr hstep ih =>
    cases hstep with
    | acquire hp hm => simp only at ih ⊢; omega
    | release hf => simp only at ih ⊢; omega

/-- C2: in every state reachable by the dispatch loop and its probe
tasks, the number of probes in flight (each holding one semaphore permit
acquired before its connect attempt and released on completion, success
or failure alike) never exceeds the configured bound `n`, for every `n`
and every number of ports `k`. -/
theorem C2_concurrency_bound {n k : Nat} {s : ScanState}
    (h : ScanReach n k s) : s.inFlight ≤ n := by
  have := scanReach_invariant h
  omega

/-- Witness for C2: with bound 1 and two ports, after one acquisition the
reachable state has one probe in flight, which is within the bound. -/
theorem C2_concurrency_bound_witness :
    (⟨1, 0, 1, 0⟩ : ScanState).inFlight ≤ 1 :=
  C2_concurrency_bound
    (ScanReach.step ScanReach.init
      (ScanStep.acquire ⟨2, 1, 0, 0⟩ (by decide) (by decide)))

theorem collectResults_map_ok (rs : List PortResult) :
    collectResults (rs.map TaskOutcome.ok) = rs := by
  induction rs with
  | nil => rfl
  | cons r rest ih => simp [collectResults, ih]

theorem countStatus_total (rs : List PortResult) :
    countStatus PortStatus.Open rs + countStatus PortStatus.Closed rs +
      countStatus PortStatus.Filtered rs = rs.length := by
  induction rs with
  | nil => rfl
  | cons r rest ih =>
    unfold countStatus at ih ⊢
    cases hst : r.status <;> simp [List.filter_cons, hst] <;> omega

theorem collectResults_length_le (outs : List TaskOutcome) :
    (collectResults outs).length ≤ outs.length := by
  induction outs with
  | nil => exact Nat.le_refl 0
  | cons o rest ih =>
    cases o with
    | ok r => simpa [collectResults] using ih
    | dispatchFailed =>
      simp only [collectResults, List.length_cons]
      omega

/-- C8: a scan whose `k` tasks all join successfully produces a summary
holding exactly those `k` results, unchanged from how each probe
constructed them, and its open, closed and filtered counts sum to `k`. -/
theorem C8_complete_scan :
    ∀ (target : String) (time : Nat) (rs : List PortResult),
      (mkSummary target time (rs.map TaskOutcome.ok)).results = rs ∧
      (mkSummary target time (rs.map TaskOutcome.ok)).scanned_ports = rs.length ∧
      (mkSummary target time (rs.map TaskOutcome.ok)).open_ports +
          (mkSummary target time (rs.map TaskOutcome.ok)).closed_ports +
          (mkSummary target time (rs.map TaskOutcome.ok)).filtered_ports =
        rs.length := by
  intro target time rs
  refine ⟨?_, ?_, ?_⟩ <;>
    simp [mkSummary, collectResults_map_ok, countStatus_total]

/-- C10: in every constructed summary — including scans with dispatch
failures — `scanned_ports` equals the length of the collected results and
equals the sum of the three status counts, and it counts completed probes
only: it never exceeds the number of dispatched tasks, and a lone
dispatch failure yields a summary of zero scanned ports. -/
theorem C10_summary_counts :
    (∀ (target : String) (time : Nat) (outs : List TaskOutcome),
        (mkSummary target time outs).scanned_ports =
            (mkSummary target time outs).results.length ∧
          (mkSummary target time outs).scanned_ports =
            (mkSummary target time outs).open_ports +
              (mkSummary target time outs).closed_ports +
              (mkSummary target time outs).filtered_ports ∧
          (mkSummary target time outs).scanned_ports ≤ outs.length) ∧
      (mkSummary "h" 0 [TaskOutcome.dispatchFailed]).scanned_ports = 0 := by
  refine ⟨?_, rfl⟩
  intro target time outs
  refine ⟨rfl, ?_, ?_⟩
  · simp [mkSummary, countStatus_total]
  · simpa [mkSummary] using collectResults_length_le outs
